import Mathlib

/-!
Verification of the DAXPY micro-benchmark harness (src/main.c).

The development shallowly embeds the program:
* doubles are modelled exactly (the kernels apply one addition and one
  multiplication per index, with no reduction, so every scheduling of the
  loop performs bit-identical operations; the element type is left abstract
  for the kernels and taken as the rationals for the timer arithmetic);
* C `int` values are modelled as `Int`;
* the OpenMP loops are modelled as a fold of the loop body over an explicit
  schedule (a list of indices), with the static and dynamic schedules built
  from the partition each pragma prescribes;
* the interactive `main` loop is modelled as a function from the list of
  triples read by `scanf` to the executed trials, the event trace, and the
  exit code.
-/

namespace Daxpy

/-! ## Timer: `ts_to_ms` (src/main.c lines 20-22) and the wall-time
subtraction in `main` (lines 157-159). `tv_sec`/`tv_nsec` are integer
fields of `struct timespec`; the double arithmetic is modelled exactly
over `ℚ`. -/

/-- A `struct timespec` value: seconds and nanoseconds components. -/
structure Timespec where
  tv_sec : Int
  tv_nsec : Int
deriving DecidableEq

/-- `ts_to_ms` from src/main.c: `((double) ts->tv_sec) * 1000.0 +
((double) ts->tv_nsec) / 1000000.0`. -/
def ts_to_ms (ts : Timespec) : ℚ :=
  (ts.tv_sec : ℚ) * 1000 + (ts.tv_nsec : ℚ) / 1000000

/-- The spec's reference formula for the conversion (spec section 4.4):
seconds-component times 1000 plus nanoseconds-component divided by
1,000,000.  Stated separately from `ts_to_ms` so the two can be compared. -/
def ts_to_ms_spec (ts : Timespec) : ℚ :=
  (ts.tv_sec : ℚ) * 1000 + (ts.tv_nsec : ℚ) / 1000000

/-- The wall-time computation of `main` (src/main.c lines 157-159):
convert each timestamp independently, then subtract. -/
def wall_time (start finish : Timespec) : ℚ :=
  let start_time := ts_to_ms start
  let finish_time := ts_to_ms finish
  finish_time - start_time

/-! ## Trial loop: the `while (n != -1)` loop of `main`
(src/main.c lines 126-169), modelled over the list of integer triples
(mode, thread count, vector length) consumed by the three `scanf` calls. -/

/-- Observable steps of one trial and of session shutdown, in the order the
statements of `main` execute them. -/
inductive Ev
  | readParams
  | scalar
  | allocX
  | allocY
  | initX
  | initY
  | timerStart
  | kernelCall (dyn : Bool)
  | timerStop
  | report
  | freeX
  | freeY
  | farewell
deriving DecidableEq

/-- The straight-line event order of one executed trial body
(src/main.c lines 127-162): the three prompts are read, then the scalar is
drawn (line 134), then `x` and `y` are allocated (137-138) and initialized
(140-141), the timers start (144-145), the selected kernel runs (146-150),
the timers stop (151-152), the measurement is printed (160) and the vectors
are freed (161-162). -/
def trialTrace (mode : Int) : List Ev :=
  [Ev.readParams, Ev.scalar, Ev.allocX, Ev.allocY, Ev.initX, Ev.initY,
   Ev.timerStart, Ev.kernelCall (mode != 0), Ev.timerStop, Ev.report,
   Ev.freeX, Ev.freeY]

/-- The per-trial step order claimed by the spec (section 4.5): read
parameters, allocate, initialize both vectors, and only then draw the
scalar.  Stated separately so it can be compared with `trialTrace`. -/
def specTrialOrder (mode : Int) : List Ev :=
  [Ev.readParams, Ev.allocX, Ev.allocY, Ev.initX, Ev.initY, Ev.scalar,
   Ev.timerStart, Ev.kernelCall (mode != 0), Ev.timerStop, Ev.report,
   Ev.freeX, Ev.freeY]

/-- Result of a terminating session: the run parameters of every executed
trial, the full event trace, and the process exit status. -/
structure SessionOut where
  trials : List (Int × Int × Int)
  events : List Ev
  exitCode : Int
deriving DecidableEq

/-- The `while (n != -1)` loop of `main` over the triples answered to the
prompts.  `none` means the input list was exhausted before the sentinel
(the program would block in `scanf`); `some` is normal termination, which
prints the farewell line and returns 0. -/
def runSession : List (Int × Int × Int) → Option SessionOut
  | [] => none
  | (m, t, n) :: rest =>
    if n = -1 then some ⟨[], [Ev.farewell], 0⟩
    else
      match runSession rest with
      | none => none
      | some out => some ⟨(m, t, n) :: out.trials, trialTrace m ++ out.events, out.exitCode⟩

/-! ## DAXPY kernels (src/main.c lines 32-37, 61-66, 79-84).

The element type is abstract: the loop body applies one multiplication and
one addition per index, so any instantiation (in particular IEEE doubles)
computes the same value at every index under every schedule.  A parallel
loop is modelled as a fold of the loop body over the list of indices in the
order they are processed; a scheduling policy is the partition of [0, n)
it prescribes. -/

/-- The state the kernels act on: the two vectors and the scalar.  Only
`y` is written by the loop body. -/
@[ext]
structure DState (α : Type) where
  x : List α
  y : List α
  a : α
deriving DecidableEq

/-- One iteration of the kernel loop (src/main.c lines 64 and 82):
`y[i] = y[i] + x[i]*a`. -/
def daxpyBody {α : Type} [Inhabited α] [Add α] [Mul α] (s : DState α) (i : Nat) : DState α :=
  { s with y := s.y.set i (s.y.getD i default + s.x.getD i default * s.a) }

/-- Run the kernel loop body over a schedule (the list of indices in
processing order). -/
def runSchedule {α : Type} [Inhabited α] [Add α] [Mul α] : DState α → List Nat → DState α
  | s, [] => s
  | s, i :: rest => runSchedule (daxpyBody s i) rest

/-- The `schedule(static)` partition of `[0, n)` into `t` contiguous
blocks of equal size (within one): block `b` covers
`[b*n/t, (b+1)*n/t)`. -/
def staticBlocks (n t : Nat) : List (List Nat) :=
  (List.range t).map fun b => List.range' (b * n / t) ((b + 1) * n / t - b * n / t)

/-- The index order of the static variant: its blocks laid end to end
(each index is processed exactly once; which worker runs a block does not
affect the values written). -/
def staticSched (n t : Nat) : List Nat := (staticBlocks n t).flatten

/-- The `schedule(dynamic, 100)` partition of `[0, n)` into chunks of 100
consecutive indices (the last chunk may be shorter): chunk `c` covers
`[100*c, min (100*(c+1)) n)`. -/
def dynChunks (n : Nat) : List (List Nat) :=
  (List.range ((n + 99) / 100)).map fun c =>
    List.range' (min (c * 100) n) (min ((c + 1) * 100) n - min (c * 100) n)

/-- The canonical index order of the dynamic variant: its chunks in
ascending order.  Theorem `C2_dynamic_any_chunk_order` covers every other
chunk order. -/
def dynSched (n : Nat) : List Nat := (dynChunks n).flatten

/-- `calculate_daxpy` (src/main.c lines 61-66): the static-schedule
kernel.  `n` and `threads` are C `int` values; the loop runs for the
indices `0 ≤ i < n`. -/
def calculate_daxpy {α : Type} [Inhabited α] [Add α] [Mul α]
    (x y : List α) (a : α) (n : Int) (threads : Int) : DState α :=
  runSchedule ⟨x, y, a⟩ (staticSched n.toNat threads.toNat)

/-- `calculate_daxpy_dynamic` (src/main.c lines 79-84): the
dynamic-schedule kernel.  The thread count decides only which worker runs
a chunk, not which indices are processed, so it does not appear in the
schedule. -/
def calculate_daxpy_dynamic {α : Type} [Inhabited α] [Add α] [Mul α]
    (x y : List α) (a : α) (n : Int) (threads : Int) : DState α :=
  runSchedule ⟨x, y, a⟩ (dynSched n.toNat)

/-- The spec's sequential reference (spec section 4.3): the same loop body
over `i = 0, 1, ..., n-1` in order. -/
def daxpy_seq {α : Type} [Inhabited α] [Add α] [Mul α]
    (x y : List α) (a : α) (n : Int) : DState α :=
  runSchedule ⟨x, y, a⟩ (List.range n.toNat)

/-- `initialize_array` (src/main.c lines 32-37): `arr[i] = rand()` for
`0 ≤ i < n`, with `draws i` the value the shared generator supplies for
index `i`.  The thread count distributes the indices but does not change
which elements are written. -/
def initialize_array {α : Type} (arr : List α) (n : Int) (threads : Int)
    (draws : Nat → α) : List α :=
  (List.range n.toNat).foldl (fun acc i => acc.set i (draws i)) arr

/-! ## Theorems about the timer -/

/-- C9: the timestamp-to-milliseconds conversion equals the spec's
reference formula, and the reported wall time is obtained by converting the
two timestamps independently and subtracting. -/
theorem C9_ts_to_ms_matches_spec (ts start finish : Timespec) :
    ts_to_ms ts = ts_to_ms_spec ts ∧
    wall_time start finish = ts_to_ms finish - ts_to_ms start :=
  ⟨rfl, rfl⟩

/-- C8: when the finish timestamp is not earlier than the start timestamp
(lexicographically on seconds then nanoseconds, with nanoseconds in
[0, 10^9)), the reported elapsed duration is nonnegative. -/
theorem C8_wall_time_nonneg (start finish : Timespec)
    (hs0 : 0 ≤ start.tv_nsec) (hs1 : start.tv_nsec < 1000000000)
    (hf0 : 0 ≤ finish.tv_nsec) (hf1 : finish.tv_nsec < 1000000000)
    (hord : start.tv_sec < finish.tv_sec ∨
      (start.tv_sec = finish.tv_sec ∧ start.tv_nsec ≤ finish.tv_nsec)) :
    0 ≤ ts_to_ms finish - ts_to_ms start ∧ 0 ≤ wall_time start finish := by
  have hint : (0 : Int) ≤
      (finish.tv_sec - start.tv_sec) * 1000000000 + (finish.tv_nsec - start.tv_nsec) := by
    rcases hord with h | ⟨h1, h2⟩ <;> omega
  have hq : (0 : ℚ) ≤
      (((finish.tv_sec - start.tv_sec) * 1000000000 + (finish.tv_nsec - start.tv_nsec) : Int) : ℚ) := by
    exact_mod_cast hint
  have hr : ts_to_ms finish - ts_to_ms start =
      (((finish.tv_sec - start.tv_sec) * 1000000000 + (finish.tv_nsec - start.tv_nsec) : Int) : ℚ) / 1000000 := by
    unfold ts_to_ms
    push_cast
    ring
  have hmain : 0 ≤ ts_to_ms finish - ts_to_ms start := by
    rw [hr]
    exact div_nonneg hq (by norm_num)
  exact ⟨hmain, hmain⟩

/-- Witness for C8 at the concrete timestamps (10 s, 500 ns) and
(11 s, 0 ns). -/
theorem C8_wall_time_nonneg_witness :
    (0 : Int) ≤ 500 ∧
    (0 ≤ ts_to_ms ⟨11, 0⟩ - ts_to_ms ⟨10, 500⟩ ∧ 0 ≤ wall_time ⟨10, 500⟩ ⟨11, 0⟩) :=
  ⟨by decide,
   C8_wall_time_nonneg ⟨10, 500⟩ ⟨11, 0⟩ (by decide) (by decide) (by decide) (by decide)
     (Or.inl (by decide))⟩

/-! ## Theorems about the trial loop -/

/-- C5: whenever the first trial's vector-length prompt is answered -1, the
session terminates at once: no trial executes (so nothing is allocated and
no kernel runs), only the farewell line is printed, and the exit status is
0, whatever the mode and thread-count answers were. -/
theorem C5_sentinel_ends_session (m t : Int) (rest : List (Int × Int × Int)) :
    runSession ((m, t, -1) :: rest) = some ⟨[], [Ev.farewell], 0⟩ := by
  simp [runSession]

/-- C3 as stated is false: the loop guard of `main` only compares the
vector length with -1, so the negative length -2 reaches allocation and the
kernel call.  Concretely, the session fed (0, 1, -2) then (0, 1, -1)
executes a trial whose vector length is -2 < 0. -/
theorem C3_counterexample :
    runSession [(0, 1, -2), (0, 1, -1)] =
      some ⟨[(0, 1, -2)], trialTrace 0 ++ [Ev.farewell], 0⟩ ∧
    ¬ ((0 : Int) ≤ -2) := by
  constructor
  · rfl
  · decide

/-- C3, amended: any trial that reaches allocation and the kernel has a
vector length different from -1 (the sentinel never reaches allocation);
lengths below -1 are not excluded. -/
theorem C3_executed_trial_not_sentinel (inputs : List (Int × Int × Int))
    (out : SessionOut) (h : runSession inputs = some out)
    (p : Int × Int × Int) (hp : p ∈ out.trials) :
    p.2.2 ≠ -1 := by
  induction inputs generalizing out with
  | nil => simp [runSession] at h
  | cons q rest ih =>
    obtain ⟨m, t, n⟩ := q
    by_cases hn : n = -1
    · rw [runSession, if_pos hn] at h
      obtain rfl := (Option.some_injective _ h).symm
      simp at hp
    · rw [runSession, if_neg hn] at h
      cases hrec : runSession rest with
      | none => rw [hrec] at h; simp at h
      | some out2 =>
        rw [hrec] at h
        obtain rfl := (Option.some_injective _ h).symm
        rcases List.mem_cons.mp hp with hpq | hpm
        · rw [hpq]
          exact hn
        · exact ih out2 hrec hpm

/-- Witness for the amended C3: in the session fed (0, 1, 5) then the
sentinel, the executed trial's length 5 is not -1. -/
theorem C3_executed_trial_not_sentinel_witness :
    ((0 : Int), (1 : Int), (5 : Int)).2.2 ≠ -1 :=
  C3_executed_trial_not_sentinel [(0, 1, 5), (0, 1, -1)]
    ⟨[(0, 1, 5)], trialTrace 0 ++ [Ev.farewell], 0⟩ rfl (0, 1, 5) (by decide)

/-- C4 as stated is false: in the trial body of `main` the scalar is drawn
(line 134) before the vectors are allocated (lines 137-138) and
initialized (lines 140-141), so ScalarSource does not run after the two
VectorInitializer calls, and the actual trace differs from the claimed
order. -/
theorem C4_counterexample :
    trialTrace 0 ≠ specTrialOrder 0 ∧
    ¬ ((trialTrace 0).indexOf Ev.initY < (trialTrace 0).indexOf Ev.scalar) := by
  decide

/-- C4, amended: in every executed trial the steps run in the order read
parameters, draw the scalar, allocate `x` then `y`, initialize `x` then
`y`, start the timer, run the selected kernel, stop the timer, report, free
`x` then `y`; the scalar draw is the step right after reading parameters,
before allocation and initialization. -/
theorem C4_trial_step_order (mode : Int) :
    (trialTrace mode).indexOf Ev.readParams < (trialTrace mode).indexOf Ev.scalar ∧
    (trialTrace mode).indexOf Ev.scalar < (trialTrace mode).indexOf Ev.allocX ∧
    (trialTrace mode).indexOf Ev.allocX < (trialTrace mode).indexOf Ev.allocY ∧
    (trialTrace mode).indexOf Ev.allocY < (trialTrace mode).indexOf Ev.initX ∧
    (trialTrace mode).indexOf Ev.initX < (trialTrace mode).indexOf Ev.initY ∧
    (trialTrace mode).indexOf Ev.initY < (trialTrace mode).indexOf Ev.timerStart ∧
    (trialTrace mode).indexOf Ev.timerStart <
      (trialTrace mode).indexOf (Ev.kernelCall (mode != 0)) ∧
    (trialTrace mode).indexOf (Ev.kernelCall (mode != 0)) <
      (trialTrace mode).indexOf Ev.timerStop ∧
    (trialTrace mode).indexOf Ev.timerStop < (trialTrace mode).indexOf Ev.report ∧
    (trialTrace mode).indexOf Ev.report < (trialTrace mode).indexOf Ev.freeX ∧
    (trialTrace mode).indexOf Ev.freeX < (trialTrace mode).indexOf Ev.freeY ∧
    (trialTrace mode).count Ev.scalar = 1 := by
  cases hb : (mode != 0) <;> simp only [trialTrace, hb] <;> decide

/-! ## Kernel lemmas -/

lemma runSchedule_nil {α : Type} [Inhabited α] [Add α] [Mul α] (s : DState α) :
    runSchedule s [] = s := rfl

lemma runSchedule_cons {α : Type} [Inhabited α] [Add α] [Mul α] (s : DState α)
    (i : Nat) (rest : List Nat) :
    runSchedule s (i :: rest) = runSchedule (daxpyBody s i) rest := rfl

lemma runSchedule_x {α : Type} [Inhabited α] [Add α] [Mul α] (s : DState α)
    (l : List Nat) : (runSchedule s l).x = s.x := by
  induction l generalizing s with
  | nil => rfl
  | cons i rest ih => rw [runSchedule_cons, ih]; rfl

lemma runSchedule_a {α : Type} [Inhabited α] [Add α] [Mul α] (s : DState α)
    (l : List Nat) : (runSchedule s l).a = s.a := by
  induction l generalizing s with
  | nil => rfl
  | cons i rest ih => rw [runSchedule_cons, ih]; rfl

lemma runSchedule_y_length {α : Type} [Inhabited α] [Add α] [Mul α] (s : DState α)
    (l : List Nat) : (runSchedule s l).y.length = s.y.length := by
  induction l generalizing s with
  | nil => rfl
  | cons i rest ih => rw [runSchedule_cons, ih]; simp [daxpyBody]

/-- Pointwise description of a kernel run: under a duplicate-free schedule
whose indices are in bounds, index `j` ends at `y[j] + x[j]*a` when `j` is
scheduled and is untouched otherwise. -/
lemma runSchedule_getElem? {α : Type} [Inhabited α] [Add α] [Mul α] (s : DState α)
    (l : List Nat) (hnd : l.Nodup) (hsub : ∀ i ∈ l, i < s.y.length) (j : Nat) :
    (runSchedule s l).y[j]? =
      if j ∈ l then some (s.y.getD j default + s.x.getD j default * s.a)
      else s.y[j]? := by
  induction l generalizing s with
  | nil => simp [runSchedule_nil]
  | cons i rest ih =>
    rw [runSchedule_cons]
    rcases List.nodup_cons.mp hnd with ⟨hni, hndr⟩
    have hi : i < s.y.length := hsub i (by simp)
    have hsub2 : ∀ k ∈ rest, k < (daxpyBody s i).y.length := by
      intro k hk
      simpa [daxpyBody] using hsub k (by simp [hk])
    rw [ih (daxpyBody s i) hndr hsub2]
    by_cases hji : j = i
    · subst hji
      rw [if_neg hni, if_pos (by simp)]
      simp [daxpyBody, List.getElem?_set, hi]
    · have hmem : (j ∈ i :: rest) ↔ (j ∈ rest) := by
        simp [List.mem_cons, hji]
      by_cases hjr : j ∈ rest
      · rw [if_pos hjr, if_pos (hmem.mpr hjr)]
        have hij : i ≠ j := fun h => hji h.symm
        simp [daxpyBody, List.getD_eq_getElem?_getD, List.getElem?_set, hij]
      · rw [if_neg hjr, if_neg (fun h => hjr (hmem.mp h))]
        have hij : i ≠ j := fun h => hji h.symm
        simp [daxpyBody, List.getElem?_set, hij]

/-- Two duplicate-free schedules with the same set of in-bounds indices
produce the same state: each element's final value depends only on whether
its index is scheduled. -/
lemma runSchedule_congr {α : Type} [Inhabited α] [Add α] [Mul α] (s : DState α)
    (l₁ l₂ : List Nat) (h1 : l₁.Nodup) (h2 : l₂.Nodup)
    (hm : ∀ j, j ∈ l₁ ↔ j ∈ l₂) (hsub : ∀ i ∈ l₁, i < s.y.length) :
    runSchedule s l₁ = runSchedule s l₂ := by
  have hsub2 : ∀ i ∈ l₂, i < s.y.length := fun i hi => hsub i ((hm i).mpr hi)
  apply DState.ext
  · rw [runSchedule_x, runSchedule_x]
  · apply List.ext_getElem?
    intro j
    rw [runSchedule_getElem? s l₁ h1 hsub j, runSchedule_getElem? s l₂ h2 hsub2 j]
    simp only [hm j]
  · rw [runSchedule_a, runSchedule_a]

/-- Laying end to end the blocks `[f b, f (b+1))` of a monotone partition
function `f` with `f 0 = 0` yields `[0, f t)` in order. -/
lemma flatten_cover (f : Nat → Nat) (hmono : ∀ b, f b ≤ f (b + 1)) (h0 : f 0 = 0)
    (t : Nat) :
    ((List.range t).map fun b => List.range' (f b) (f (b + 1) - f b)).flatten =
      List.range (f t) := by
  induction t with
  | zero => simp [h0]
  | succ t ih =>
    rw [List.range_succ, List.map_append, List.flatten_append, ih]
    simp only [List.map_cons, List.map_nil, List.flatten_cons, List.flatten_nil,
      List.append_nil]
    rw [List.range_eq_range', List.range_eq_range']
    have hA : List.range' 0 (f t) ++ List.range' (0 + 1 * f t) (f (t + 1) - f t) =
        List.range' 0 ((f (t + 1) - f t) + f t) := List.range'_append 0 (f t) (f (t + 1) - f t) 1
    have hft : 0 + 1 * f t = f t := by omega
    rw [hft] at hA
    rw [hA]
    have hm := hmono t
    congr 1
    omega

/-- For at least one thread, the static schedule visits exactly the indices
`0, 1, ..., n-1`, in order. -/
lemma staticSched_eq_range (n t : Nat) (ht : 1 ≤ t) : staticSched n t = List.range n := by
  have hmono : ∀ b, b * n / t ≤ (b + 1) * n / t := fun b =>
    Nat.div_le_div_right (Nat.mul_le_mul_right n (Nat.le_succ b))
  have h := flatten_cover (fun b => b * n / t) hmono (by simp) t
  have hc : t * n / t = n := Nat.mul_div_cancel_left n ht
  unfold staticSched staticBlocks
  simpa [hc] using h

/-- The dynamic schedule's chunks, in ascending order, visit exactly the
indices `0, 1, ..., n-1`, in order. -/
lemma dynSched_eq_range (n : Nat) : dynSched n = List.range n := by
  have hmono : ∀ c, min (c * 100) n ≤ min ((c + 1) * 100) n := fun c => by omega
  have h := flatten_cover (fun c => min (c * 100) n) hmono (by simp) ((n + 99) / 100)
  have hc : min ((n + 99) / 100 * 100) n = n := by omega
  unfold dynSched dynChunks
  simpa [hc] using h

/-! ## Theorems about the kernels -/

/-- C1: for every length, thread count at least 1, scalar, and equal-length
vectors, both kernel variants equal the sequential reference (in
particular each other), and every element `i < n` of the result is the old
`y[i]` plus `x[i]*a`. -/
theorem C1_variants_match_sequential {α : Type} [Inhabited α] [Add α] [Mul α]
    (x y : List α) (a : α) (n : Int) (threads : Int)
    (hn : 0 ≤ n) (ht : 1 ≤ threads)
    (hx : x.length = n.toNat) (hy : y.length = n.toNat) :
    calculate_daxpy x y a n threads = daxpy_seq x y a n ∧
    calculate_daxpy_dynamic x y a n threads = daxpy_seq x y a n ∧
    calculate_daxpy x y a n threads = calculate_daxpy_dynamic x y a n threads ∧
    ∀ i < n.toNat, (calculate_daxpy x y a n threads).y.getD i default =
      y.getD i default + x.getD i default * a := by
  have hts : 1 ≤ threads.toNat := by omega
  have hstat : calculate_daxpy x y a n threads = daxpy_seq x y a n := by
    unfold calculate_daxpy daxpy_seq
    rw [staticSched_eq_range _ _ hts]
  have hdyn : calculate_daxpy_dynamic x y a n threads = daxpy_seq x y a n := by
    unfold calculate_daxpy_dynamic daxpy_seq
    rw [dynSched_eq_range]
  refine ⟨hstat, hdyn, by rw [hstat, hdyn], ?_⟩
  intro i hi
  rw [hstat]
  unfold daxpy_seq
  have hch := runSchedule_getElem? ⟨x, y, a⟩ (List.range n.toNat)
    (List.nodup_range _)
    (by intro k hk; simpa [hy] using List.mem_range.mp hk) i
  rw [List.getD_eq_getElem?_getD, hch, if_pos (List.mem_range.mpr hi)]
  rfl

/-- Witness for C1 at `x = [1, 2, 3]`, `y = [4, 5, 6]`, `a = 10`, `n = 3`,
two threads, over the integers. -/
theorem C1_variants_match_sequential_witness :
    (0 : Int) ≤ 3 ∧ (1 : Int) ≤ 2 ∧
    [(1 : Int), 2, 3].length = (3 : Int).toNat ∧
    [(4 : Int), 5, 6].length = (3 : Int).toNat ∧
    (calculate_daxpy [(1 : Int), 2, 3] [4, 5, 6] 10 3 2 =
        daxpy_seq [(1 : Int), 2, 3] [4, 5, 6] 10 3 ∧
      calculate_daxpy_dynamic [(1 : Int), 2, 3] [4, 5, 6] 10 3 2 =
        daxpy_seq [(1 : Int), 2, 3] [4, 5, 6] 10 3 ∧
      calculate_daxpy [(1 : Int), 2, 3] [4, 5, 6] 10 3 2 =
        calculate_daxpy_dynamic [(1 : Int), 2, 3] [4, 5, 6] 10 3 2 ∧
      ∀ i < (3 : Int).toNat,
        (calculate_daxpy [(1 : Int), 2, 3] [4, 5, 6] 10 3 2).y.getD i default =
          [(4 : Int), 5, 6].getD i default + [(1 : Int), 2, 3].getD i default * 10) :=
  ⟨by decide, by decide, by decide, by decide,
   C1_variants_match_sequential [(1 : Int), 2, 3] [4, 5, 6] 10 3 2
     (by decide) (by decide) (by decide) (by decide)⟩

/-- C2: processing the dynamic variant's 100-wide chunks in any order
until they are exhausted produces the same state as the static variant on
the same inputs. -/
theorem C2_dynamic_any_chunk_order {α : Type} [Inhabited α] [Add α] [Mul α]
    (x y : List α) (a : α) (n : Int) (threads : Int) (cs : List (List Nat))
    (hperm : cs.Perm (dynChunks n.toNat)) (ht : 1 ≤ threads)
    (hy : y.length = n.toNat) :
    runSchedule ⟨x, y, a⟩ cs.flatten = calculate_daxpy x y a n threads := by
  have hflat : cs.flatten.Perm (List.range n.toNat) := by
    have h := List.Perm.flatten hperm
    rwa [show (dynChunks n.toNat).flatten = List.range n.toNat from dynSched_eq_range n.toNat] at h
  have h1 : cs.flatten.Nodup := hflat.nodup_iff.mpr (List.nodup_range _)
  have hm : ∀ j, j ∈ cs.flatten ↔ j ∈ List.range n.toNat := fun j => hflat.mem_iff
  unfold calculate_daxpy
  rw [staticSched_eq_range _ _ (by omega)]
  exact runSchedule_congr ⟨x, y, a⟩ cs.flatten (List.range n.toNat) h1
    (List.nodup_range _) hm
    (fun i hi => by simpa [hy] using List.mem_range.mp ((hm i).mp hi))

/-- Witness for C2 at `n = 250` (three chunks: two of 100 and one of 50),
two threads, with the chunks processed in reverse order, over the
integers. -/
theorem C2_dynamic_any_chunk_order_witness :
    ((dynChunks (250 : Int).toNat).reverse.Perm (dynChunks (250 : Int).toNat)) ∧
    runSchedule ⟨List.replicate 250 (1 : Int), List.replicate 250 2, 3⟩
        (dynChunks (250 : Int).toNat).reverse.flatten =
      calculate_daxpy (List.replicate 250 (1 : Int)) (List.replicate 250 2) 3 250 2 :=
  ⟨List.reverse_perm _,
   C2_dynamic_any_chunk_order (List.replicate 250 (1 : Int)) (List.replicate 250 2)
     3 250 2 ((dynChunks (250 : Int).toNat).reverse) (List.reverse_perm _)
     (by decide) (by rw [List.length_replicate]; decide)⟩

/-- C6: both kernel variants leave the `x` vector and the scalar `a`
untouched; only `y` is written. -/
theorem C6_only_y_mutated {α : Type} [Inhabited α] [Add α] [Mul α]
    (x y : List α) (a : α) (n : Int) (threads : Int)
    (hn : 0 ≤ n) (ht : 1 ≤ threads) :
    (calculate_daxpy x y a n threads).x = x ∧
    (calculate_daxpy x y a n threads).a = a ∧
    (calculate_daxpy_dynamic x y a n threads).x = x ∧
    (calculate_daxpy_dynamic x y a n threads).a = a := by
  unfold calculate_daxpy calculate_daxpy_dynamic
  exact ⟨runSchedule_x _ _, runSchedule_a _ _, runSchedule_x _ _, runSchedule_a _ _⟩

/-- Witness for C6 at `x = [1, 2]`, `y = [3, 4]`, `a = 7`, `n = 2`, one
thread, over the integers. -/
theorem C6_only_y_mutated_witness :
    (0 : Int) ≤ 2 ∧ (1 : Int) ≤ 1 ∧
    ((calculate_daxpy [(1 : Int), 2] [3, 4] 7 2 1).x = [(1 : Int), 2] ∧
      (calculate_daxpy [(1 : Int), 2] [3, 4] 7 2 1).a = 7 ∧
      (calculate_daxpy_dynamic [(1 : Int), 2] [3, 4] 7 2 1).x = [(1 : Int), 2] ∧
      (calculate_daxpy_dynamic [(1 : Int), 2] [3, 4] 7 2 1).a = 7) :=
  ⟨by decide, by decide,
   C6_only_y_mutated [(1 : Int), 2] [3, 4] 7 2 1 (by decide) (by decide)⟩

/-- C7: the kernels' output state does not depend on the thread count:
any two thread counts at least 1 give identical results, for each
variant. -/
theorem C7_thread_count_irrelevant {α : Type} [Inhabited α] [Add α] [Mul α]
    (x y : List α) (a : α) (n : Int) (t₁ t₂ : Int)
    (hn : 0 ≤ n) (h1 : 1 ≤ t₁) (h2 : 1 ≤ t₂) :
    calculate_daxpy x y a n t₁ = calculate_daxpy x y a n t₂ ∧
    calculate_daxpy_dynamic x y a n t₁ = calculate_daxpy_dynamic x y a n t₂ := by
  constructor
  · unfold calculate_daxpy
    rw [staticSched_eq_range _ _ (by omega : 1 ≤ t₁.toNat),
      staticSched_eq_range _ _ (by omega : 1 ≤ t₂.toNat)]
  · rfl

/-- Witness for C7 at thread counts 1 and 8, `x = [1, 2]`, `y = [3, 4]`,
`a = 5`, `n = 2`, over the integers. -/
theorem C7_thread_count_irrelevant_witness :
    (0 : Int) ≤ 2 ∧ (1 : Int) ≤ 1 ∧ (1 : Int) ≤ 8 ∧
    (calculate_daxpy [(1 : Int), 2] [3, 4] 5 2 1 =
        calculate_daxpy [(1 : Int), 2] [3, 4] 5 2 8 ∧
      calculate_daxpy_dynamic [(1 : Int), 2] [3, 4] 5 2 1 =
        calculate_daxpy_dynamic [(1 : Int), 2] [3, 4] 5 2 8) :=
  ⟨by decide, by decide, by decide,
   C7_thread_count_irrelevant [(1 : Int), 2] [3, 4] 5 2 1 8
     (by decide) (by decide) (by decide)⟩

/-- C10: for `n ≤ 0` both kernel schedules are empty, so the kernels
terminate without touching any element and return the state unchanged, and
the vector initializer likewise leaves its buffer unchanged. -/
theorem C10_nonpositive_n_no_iterations {α : Type} [Inhabited α] [Add α] [Mul α]
    (x y arr : List α) (a : α) (n : Int) (threads : Int) (draws : Nat → α)
    (hn : n ≤ 0) :
    staticSched n.toNat threads.toNat = [] ∧
    dynSched n.toNat = [] ∧
    calculate_daxpy x y a n threads = ⟨x, y, a⟩ ∧
    calculate_daxpy_dynamic x y a n threads = ⟨x, y, a⟩ ∧
    initialize_array arr n threads draws = arr := by
  have h0 : n.toNat = 0 := by omega
  have hs : staticSched n.toNat threads.toNat = [] := by
    rw [h0]
    have h := flatten_cover (fun b => b * 0 / threads.toNat) (fun b => by simp)
      (by simp) threads.toNat
    simpa [staticSched, staticBlocks] using h
  have hd : dynSched n.toNat = [] := by
    rw [h0, dynSched_eq_range]
    rfl
  refine ⟨hs, hd, ?_, ?_, ?_⟩
  · unfold calculate_daxpy
    rw [hs]
    rfl
  · unfold calculate_daxpy_dynamic
    rw [hd]
    rfl
  · unfold initialize_array
    rw [h0]
    rfl

/-- Witness for C10 at `n = -3`, over the integers. -/
theorem C10_nonpositive_n_no_iterations_witness :
    (-3 : Int) ≤ 0 ∧
    (staticSched (-3 : Int).toNat (4 : Int).toNat = [] ∧
      dynSched (-3 : Int).toNat = [] ∧
      calculate_daxpy [(1 : Int), 2] [3, 4] 5 (-3) 4 = ⟨[(1 : Int), 2], [3, 4], 5⟩ ∧
      calculate_daxpy_dynamic [(1 : Int), 2] [3, 4] 5 (-3) 4 = ⟨[(1 : Int), 2], [3, 4], 5⟩ ∧
      initialize_array [(9 : Int), 9] (-3) 4 (fun i => (i : Int)) = [(9 : Int), 9]) :=
  ⟨by decide,
   C10_nonpositive_n_no_iterations [(1 : Int), 2] [3, 4] [(9 : Int), 9] 5 (-3) 4
     (fun i => (i : Int)) (by decide)⟩

end Daxpy
